import Mathlib

/-!
Verification development for the mvr clinical-registry data pipeline.

The Python sources under scrutiny are `data.py` (the pipeline used by
`main.py`) together with the near-duplicate variants in
`data_cleansing.py` / `data_quality.py`.  Pandas cell values are embedded
as the inductive type `Val` (with `null` covering `NaN`/`NaT`/`None`),
DataFrames as column-oriented association lists, and Python `dict`s as
association lists with insertion-order/overwrite-in-place semantics.
-/

namespace MVR

attribute [local semireducible] Rat.mul Rat.inv Rat.add Rat.sub

/-- A pandas cell value.  `null` stands for `NaN`, `NaT` and `None`;
`date d` is a `Timestamp` at midnight, `d` days from the 1970-01-01 epoch
(the result of `pd.to_datetime`). -/
inductive Val where
  | null
  | num (q : ℚ)
  | str (s : String)
  | date (d : ℤ)
deriving DecidableEq, Repr

/-- `pd.isnull` / `pd.isna` on a single value. -/
def Val.isNull : Val → Bool
  | .null => true
  | _ => false

/-- Whether a value is a number (used for dtype checks). -/
def Val.isNum : Val → Bool
  | .num _ => true
  | _ => false

/-- Lookup in a Python `dict` modelled as an association list. -/
def lookupAssoc {κ α : Type} [BEq κ] : List (κ × α) → κ → Option α
  | [], _ => none
  | p :: ps, k => if p.1 == k then some p.2 else lookupAssoc ps k

/-- Assignment `d[k] = v` on a Python `dict`: overwrite in place when the
key exists, append otherwise (insertion order is preserved). -/
def insertAssoc {κ α : Type} [BEq κ] : List (κ × α) → κ → α → List (κ × α)
  | [], k, v => [(k, v)]
  | p :: ps, k, v => if p.1 == k then (k, v) :: ps else p :: insertAssoc ps k v

/-- Trim ASCII whitespace from both ends of a character list
(Python `str.strip()`). -/
def trimChars (l : List Char) : List Char :=
  ((l.dropWhile Char.isWhitespace).reverse.dropWhile Char.isWhitespace).reverse

/-- Python `str.strip()`. -/
def pyStrip (s : String) : String :=
  String.mk (trimChars s.data)

/-- Python `str.lower()` (ASCII case fold). -/
def pyToLower (s : String) : String :=
  String.mk (s.data.map Char.toLower)

/-- Python `str.lstrip('*')`: drop every leading `*`. -/
def pyLStripStar (s : String) : String :=
  String.mk (s.data.dropWhile (fun c => c == '*'))

/-- Python `str.rstrip('?')`: drop every trailing `?`. -/
def pyRStripQuestion (s : String) : String :=
  String.mk ((s.data.reverse.dropWhile (fun c => c == '?')).reverse)

/-- Split a character list at the first occurrence of a separator. -/
def splitFirstChar (sep : Char) : List Char → Option (List Char × List Char)
  | [] => none
  | c :: cs =>
    if c == sep then some ([], cs)
    else
      match splitFirstChar sep cs with
      | some p => some (c :: p.1, p.2)
      | none => none

/-- Python `s.split('#', 1)`: split on the first `#` only
(the no-`#` fallback is unused because the caller tests membership
first). -/
def splitFirstHash (s : String) : String × String :=
  match splitFirstChar '#' s.data with
  | some p => (String.mk p.1, String.mk p.2)
  | none => (s, "")

/-- Whether a string contains a `#` character. -/
def containsHash (s : String) : Bool :=
  s.data.any (fun c => c == '#')

/-- The canonical name a single raw header is mapped to by
`process_headers` (`data.py` lines 77-86). -/
def headerCanonName (col : String) : String :=
  let colStr := pyStrip col
  if containsHash colStr then
    pyRStripQuestion (pyLStripStar (pyStrip (splitFirstHash colStr).1))
  else
    pyLStripStar colStr

/-- One step of the `for col in columns` loop of `process_headers`
(`data.py` lines 74-87): appends the canonical name and, when the header
carries a `# description` part, stores the whitespace-stripped right part
keyed by the canonical name. -/
def processHeadersStep (acc : List String × List (String × String)) (col : String) :
    List String × List (String × String) :=
  let colStr := pyStrip col
  if containsHash colStr then
    let parts := splitFirstHash colStr
    let actual := pyRStripQuestion (pyLStripStar (pyStrip parts.1))
    let desc := pyStrip parts.2
    (acc.1 ++ [actual], insertAssoc acc.2 actual desc)
  else
    (acc.1 ++ [pyLStripStar colStr], acc.2)

/-- `process_headers` from `data.py` lines 74-87: returns the new header
list and the description dictionary. -/
def process_headers (columns : List String) : List String × List (String × String) :=
  columns.foldl processHeadersStep ([], [])

/-- One structured gene record (`data.py` lines 103-108). -/
structure GeneRecord where
  name : Val
  vaf : Val
  tier : Val
  var_desc : Val
deriving DecidableEq, Repr

/-- Python `zip` over four lists: truncates to the shortest list. -/
def zip4 {α β γ δ : Type} : List α → List β → List γ → List δ → List (α × β × γ × δ)
  | a :: as, b :: bs, c :: cs, d :: ds => (a, b, c, d) :: zip4 as bs cs ds
  | _, _, _, _ => []

/-- The sentinel test of `combine_gene_info` (`data.py` line 101):
`pd.isna(gene) or gene == 0 or str(gene).strip() == "0"`. -/
def isGeneSentinel : Val → Bool
  | .null => true
  | .num q => q == 0
  | .str s => pyStrip s == "0"
  | .date _ => false

/-- `combine_gene_info` from `data.py` lines 89-109, applied to the four
aggregated panel lists of one patient row.  The `for ... in zip(...)`
loop iterates over `zip4`, which truncates to the shortest list. -/
def combine_gene_info (genes vafs tiers var_descs : List Val) : List GeneRecord :=
  (zip4 genes vafs tiers var_descs).filterMap fun x =>
    if isGeneSentinel x.1 then none
    else some ⟨x.1, x.2.1, x.2.2.1, x.2.2.2⟩

/-- `Series.dropna()` on a column of values. -/
def seriesDropna (xs : List Val) : List Val :=
  xs.filter (fun v => !v.isNull)

/-- The non-panel aggregation lambda of `data_cleansing` (`data.py`
line 170): `x.dropna().iloc[0] if not x.dropna().empty else None`. -/
def aggFirstNonNull (xs : List Val) : Val :=
  match seriesDropna xs with
  | [] => Val.null
  | v :: _ => v

/-- A DataFrame row as an association list from column name to value. -/
def rowGet (r : List (String × Val)) (c : String) : Val :=
  (lookupAssoc r c).getD Val.null

/-- `df.groupby("UR")` on a list of rows: groups in order of first
appearance of each `UR` key (the frame has already been sorted by `UR`
at `data.py` line 157, so first-appearance order is the sorted order). -/
def groupRows (rows : List (List (String × Val))) :
    List (Val × List (List (String × Val))) :=
  rows.foldl
    (fun acc r =>
      let k := rowGet r "UR"
      if (acc.find? (fun p => p.1 == k)).isSome then
        acc.map (fun p => if p.1 == k then (p.1, p.2 ++ [r]) else p)
      else
        acc ++ [(k, [r])])
    []

/-- The aggregated value of a non-panel scalar column for one patient
group (`data.py` lines 170-172). -/
def aggregateScalar (grp : List (List (String × Val))) (c : String) : Val :=
  aggFirstNonNull (grp.map (fun r => rowGet r c))

/-- One worksheet cell as seen by `detect_percentage_format`: its value
(only presence and, for the header cell, the text matter) and its Excel
number-format string. -/
structure Cell where
  value : Option String
  fmt : String
deriving DecidableEq, Repr

/-- The four accepted percentage number formats (`data.py` line 33). -/
def pctFormats : List String := ["0%", "0.00%", "0.0%", "0.000%"]

/-- One iteration of the `for col in ws.iter_cols()` loop of
`detect_percentage_format` (`data.py` lines 25-37): skip columns whose
header cell is absent or empty (`if not header: continue`); record the
header with value `True` when some populated cell uses a percentage
format. -/
def detectStep (acc : List (String × Bool)) (col : List Cell) : List (String × Bool) :=
  match col.head? with
  | none => acc
  | some c0 =>
    match c0.value with
    | none => acc
    | some h =>
      if h == "" then acc
      else if col.any (fun c => c.value.isSome && pctFormats.contains c.fmt) then
        insertAssoc acc h true
      else acc

/-- `detect_percentage_format` from `data.py` lines 9-39, over a sheet
given as its list of columns (each a top-to-bottom list of cells, the
header cell first). -/
def detect_percentage_format (cols : List (List Cell)) : List (String × Bool) :=
  cols.foldl detectStep []

/-- A raw numeric-column cell before `pd.to_numeric` coercion:
`num q` a numeric cell, `pctStr q` a textual cell that parses to `q`
after the `%`-strip of `data.py` line 58, `junk` an unparseable textual
cell, `null` a missing cell. -/
inductive NumCell where
  | null
  | num (q : ℚ)
  | pctStr (q : ℚ)
  | junk
deriving DecidableEq, Repr

/-- The `%`-strip plus `pd.to_numeric(..., errors="coerce")` of `data.py`
lines 58-59: unparseable cells become null, never raise. -/
def toNumericCell : NumCell → NumCell
  | .null => .null
  | .num q => .num q
  | .pctStr q => .num q
  | .junk => .null

/-- `(series > 1)` is true on a cell exactly for numeric values above 1
(comparisons against `NaN` are false). -/
def cellGtOne : NumCell → Bool
  | .num q => 1 < q
  | _ => false

/-- `(series < 1)` on a cell. -/
def cellLtOne : NumCell → Bool
  | .num q => q < 1
  | _ => false

/-- `series / 100` on a cell (`NaN` stays `NaN`). -/
def cellDiv100 : NumCell → NumCell
  | .num q => .num (q / 100)
  | v => v

/-- `series * 100` on a cell. -/
def cellMul100 : NumCell → NumCell
  | .num q => .num (q * 100)
  | v => v

/-- `standardize_numeric_columns` from `data.py` lines 42-72: iterates
over the entries of `percentage_columns`; for each entry whose column is
present it coerces the column to numeric, divides by 100 when the column
is flagged and some value exceeds 1, and multiplies by 100 when the
column is not flagged and some value is below 1. -/
def standardize_numeric_columns (df : List (String × List NumCell))
    (percentage_columns : List (String × Bool)) : List (String × List NumCell) :=
  percentage_columns.foldl
    (fun d p =>
      match lookupAssoc d p.1 with
      | none => d
      | some vals =>
        let vals1 := vals.map toNumericCell
        let inconsistent := vals1.any cellGtOne
        let vals2 :=
          if p.2 && inconsistent then vals1.map cellDiv100
          else if !p.2 && vals1.any cellLtOne then vals1.map cellMul100
          else vals1
        insertAssoc d p.1 vals2)
    df

/-- The detector-plus-normalizer composition performed by
`data_cleansing` (`data.py` lines 145-148): the sheet feeds
`detect_percentage_format`, whose output drives
`standardize_numeric_columns` on the loaded frame. -/
def pipelineStandardize (sheet : List (List Cell)) (df : List (String × List NumCell)) :
    List (String × List NumCell) :=
  standardize_numeric_columns df (detect_percentage_format sheet)

/-- One `if`-clause criterion of a conditional derivation rule:
optional `greater_than` and `less_than` bounds. -/
structure Crit where
  gt : Option ℚ
  lt : Option ℚ
deriving DecidableEq, Repr

/-- How `evaluate_conditions` (`data.py` lines 248-254) actually
evaluates one column criterion.  The Python conditional expression
`(row[col] > crit["greater_than"]) if "greater_than" in crit else True
and (row[col] < crit["less_than"]) if "less_than" in crit else True`
parses as `gt-check if gt-present else (lt-check if lt-present else
True)`: when `greater_than` is present, `less_than` is never consulted. -/
def critEvalCode (v : ℚ) (cr : Crit) : Bool :=
  match cr.gt with
  | some g => decide (g < v)
  | none =>
    match cr.lt with
    | some l => decide (v < l)
    | none => true

/-- Modelled from the spec: a criterion holds when the `greater_than`
and `less_than` sub-conditions are both satisfied (AND semantics). -/
def critEvalSpec (v : ℚ) (cr : Crit) : Bool :=
  (match cr.gt with
   | some g => decide (g < v)
   | none => true) &&
  (match cr.lt with
   | some l => decide (v < l)
   | none => true)

/-- One conditional clause `{if: {col: crit, ...}, then: {value, label}}`. -/
structure CondClause where
  ifc : List (String × Crit)
  value : ℤ
  label : String
deriving DecidableEq, Repr

/-- `row[col]` for the numeric row handed to `evaluate_conditions`. -/
def rowNum (r : List (String × ℚ)) (c : String) : ℚ :=
  (lookupAssoc r c).getD 0

/-- `evaluate_conditions` from `data.py` lines 242-257: clauses in
declared order, the first whose criteria all pass (per `critEvalCode`)
returns its `then` value, otherwise the configured default. -/
def evaluate_conditions (conds : List CondClause) (defaultVal : Option ℤ)
    (r : List (String × ℚ)) : Option ℤ :=
  match conds with
  | [] => defaultVal
  | c :: cs =>
    if c.ifc.all (fun p => critEvalCode (rowNum r p.1) p.2) then some c.value
    else evaluate_conditions cs defaultVal r

/-- Modelled from the spec: `evaluate_conditions` with genuine AND
semantics for each criterion. -/
def evaluateConditionsSpec (conds : List CondClause) (defaultVal : Option ℤ)
    (r : List (String × ℚ)) : Option ℤ :=
  match conds with
  | [] => defaultVal
  | c :: cs =>
    if c.ifc.all (fun p => critEvalSpec (rowNum r p.1) p.2) then some c.value
    else evaluateConditionsSpec cs defaultVal r

/-- The criteria of one mapping rule: optional numeric bounds (absent
bounds default to minus/plus infinity at `data.py` lines 223-224) and
the integer code to write. -/
structure MapCriteria where
  floor : Option ℚ
  ceiling : Option ℚ
  int_value : ℤ
deriving DecidableEq, Repr

/-- One mapping rule: the single-entry dict `{category: criteria}`. -/
structure MapRule where
  category : String
  criteria : MapCriteria
deriving DecidableEq, Repr

/-- The test `floor <= value < ceiling` of `data.py` line 227, with
absent bounds behaving as infinities. -/
def ruleMatches (v : ℚ) (r : MapRule) : Bool :=
  (match r.criteria.floor with
   | some f => decide (f ≤ v)
   | none => true) &&
  (match r.criteria.ceiling with
   | some c => decide (v < c)
   | none => true)

/-- `map_value` from `data.py` lines 220-229: ordered rules, first match
wins, no match yields `None`. -/
def map_value (rules : List MapRule) (v : ℚ) : Option ℤ :=
  match rules with
  | [] => none
  | r :: rs => if ruleMatches v r then some r.criteria.int_value else map_value rs v

/-- The per-cell application of `data.py` line 232:
`map_value(x) if pd.notna(x) else None`. -/
def applyMapping (rules : List MapRule) (x : Option ℚ) : Option ℤ :=
  match x with
  | some v => map_value rules v
  | none => none

/-- A derived-column definition from `config.json`
(`data.py` lines 207-264). -/
inductive ColDef where
  | count (name base : String)
  | mapping (name base : String) (rules : List MapRule)
  | conditional (name : String) (conds : List CondClause)
      (defaultVal : Option ℤ) (defaultLabel : String)
deriving Repr

/-- The label dictionary built for one mapping rule set (`data.py`
line 235): `{v["int_value"]: k for rule in mapping_rules for k, v in
rule.items()}`.  Keys live in `Option ℤ` because a conditional rule's
default value may be `None`. -/
def mapRulesMeta (rules : List MapRule) : List (Option ℤ × String) :=
  rules.foldl (fun m r => insertAssoc m (some r.criteria.int_value) r.category) []

/-- The label dictionary built for one conditional rule set (`data.py`
lines 263-264): the `then` labels keyed by their values, then the default
label keyed by the default value. -/
def condRulesMeta (conds : List CondClause) (dv : Option ℤ) (dl : String) :
    List (Option ℤ × String) :=
  insertAssoc (conds.foldl (fun m c => insertAssoc m (some c.value) c.label) []) dv dl

/-- The `header_metadata` dictionary freshly created and filled by
`data_derive` (`data.py` lines 205-264): `Count` rules contribute no
entry; `mapping` and `conditional` rules insert their label maps keyed by
the derived column name. -/
def deriveHeaderMetadata (cols : List ColDef) : List (String × List (Option ℤ × String)) :=
  cols.foldl
    (fun hm cd =>
      match cd with
      | .count _ _ => hm
      | .mapping n _ rules => insertAssoc hm n (mapRulesMeta rules)
      | .conditional n conds dv dl => insertAssoc hm n (condRulesMeta conds dv dl))
    []

/-- `generate_metadata_mapping` from `data.py` lines 111-130, as invoked
by `main.py` line 43: there its argument is the dictionary returned by
`data_derive`, whose values are all dicts, so every entry takes the
`isinstance(mapping, dict)` branch and is stored directly (the
string-parsing branch for header descriptions is unreachable on this
input and is therefore absent from the embedding's input type). -/
def generate_metadata_mapping (hm : List (String × List (Option ℤ × String))) :
    List (String × List (Option ℤ × String)) :=
  hm.foldl (fun ml p => insertAssoc ml p.1 p.2) []

/-- The metadata flow of `main.py`: line 15 binds `header_metadata` to
the description dictionary from `data_cleansing`; line 21 rebinds the
same variable to the fresh dictionary returned by `data_derive`; line 43
builds `metadata_lookup` from whatever `header_metadata` then holds.
The description dictionary from line 15 is never consulted again. -/
def mainMetadataLookup (rawHeaders : List String) (cfg : List ColDef) :
    List (String × List (Option ℤ × String)) :=
  let _descriptions := (process_headers rawHeaders).2
  let hmDerive := deriveHeaderMetadata cfg
  generate_metadata_mapping hmDerive

/-- A DataFrame, column-oriented: column name paired with its values
(all columns of one frame have equal length). -/
def Df : Type := List (String × List Val)

instance : DecidableEq Df := by
  unfold Df
  infer_instance

/-- `df[c]` as a column, when present. -/
def dfGetCol (df : Df) (c : String) : Option (List Val) :=
  lookupAssoc df c

/-- `df[c] = vals`. -/
def dfSetCol (df : Df) (c : String) (vals : List Val) : Df :=
  insertAssoc df c vals

/-- Keep the rows marked `true` in the mask, in every column. -/
def applyMask (vals : List Val) (keep : List Bool) : List Val :=
  (vals.zip keep).filterMap (fun x => if x.2 then some x.1 else none)

/-- `df.dropna(subset=[c])` realised as filtering every column by the
non-null mask of column `c`. -/
def dfFilterRows (df : Df) (keep : List Bool) : Df :=
  df.map (fun p => (p.1, applyMask p.2 keep))

/-- Map a function over one column, leaving the frame unchanged when the
column is absent. -/
def dfMapCol (df : Df) (c : String) (f : Val → Val) : Df :=
  match dfGetCol df c with
  | some vals => dfSetCol df c (vals.map f)
  | none => df

/-- Whether a year is a Gregorian leap year. -/
def isLeapYear (y : ℕ) : Bool :=
  (y % 4 == 0 && y % 100 != 0) || (y % 400 == 0)

/-- Number of days in a month of a given year. -/
def daysInMonth (y m : ℕ) : ℕ :=
  if m == 2 then (if isLeapYear y then 29 else 28)
  else if m == 4 || m == 6 || m == 9 || m == 11 then 30
  else 31

/-- Days from the 1970-01-01 epoch to the civil date `y-m-d`
(standard civil-calendar day count; valid for `y ≥ 1`, where every
intermediate quantity is non-negative). -/
def daysFromCivil (y m d : ℕ) : ℤ :=
  let yy : ℤ := if m ≤ 2 then (y : ℤ) - 1 else (y : ℤ)
  let era : ℤ := yy / 400
  let yoe : ℤ := yy - era * 400
  let mp : ℤ := ((m : ℤ) + 9) % 12
  let doy : ℤ := (153 * mp + 2) / 5 + (d : ℤ) - 1
  let doe : ℤ := yoe * 365 + yoe / 4 - yoe / 100 + doy
  era * 146097 + doe - 719468

/-- Split a character list on every occurrence of a separator
(Python `str.split(sep)`). -/
def splitOnChar (sep : Char) : List Char → List (List Char)
  | [] => [[]]
  | c :: cs =>
    let rest := splitOnChar sep cs
    if c == sep then [] :: rest
    else
      match rest with
      | r :: rs => (c :: r) :: rs
      | [] => [[c]]

/-- Parse a non-empty all-digit character list as a natural number. -/
def digitsToNat (l : List Char) : Option ℕ :=
  if l.isEmpty then none
  else if l.all Char.isDigit then
    some (l.foldl (fun n c => n * 10 + (c.toNat - 48)) 0)
  else none

/-- Parse an ISO `YYYY-MM-DD` date string to its epoch day count.
`pd.to_datetime` is a pandas library routine; the embedding accepts the
ISO form used by the data and rejects (returns `none` for) everything
else, matching `errors="coerce"`. -/
def parseDateStr (s : String) : Option ℤ :=
  match splitOnChar '-' (trimChars s.data) with
  | [ys, ms, ds] =>
    match digitsToNat ys, digitsToNat ms, digitsToNat ds with
    | some y, some m, some d =>
      if 1 ≤ y ∧ 1 ≤ m ∧ m ≤ 12 ∧ 1 ≤ d ∧ d ≤ daysInMonth y m then
        some (daysFromCivil y m d)
      else none
    | _, _, _ => none
  | _ => none

/-- `pd.to_datetime(value, errors="coerce")` on one cell: dates pass
through, parseable strings become dates, unparseable strings become null
(`NaT`) without raising, null stays null.  Pandas interprets bare numbers
as epoch offsets in nanoseconds; any realistic magnitude lands within
day 0, which is how the embedding renders them. -/
def pdToDatetime : Val → Val
  | .null => .null
  | .date d => .date d
  | .num _ => .date 0
  | .str s =>
    match parseDateStr s with
    | some d => .date d
    | none => .null

/-- The row lambda of the calc branch (`data.py` lines 333-336):
`(row[first] - row[second]).days / 30 if pd.isnull(row[col]) and
pd.notnull(row[first]) and pd.notnull(row[second]) else row[col]`. -/
def calcCell (target first second : Val) : Val :=
  if target.isNull && !first.isNull && !second.isNull then
    match first, second with
    | .date a, .date b => .num (((a - b : ℤ) : ℚ) / 30)
    | _, _ => target
  else target

/-- Pointwise zip of three equal-length columns (`df.apply(..., axis=1)`
reading three columns of a rectangular frame). -/
def zipWith3V (f : Val → Val → Val → Val) : List Val → List Val → List Val → List Val
  | a :: as, b :: bs, c :: cs => f a b c :: zipWith3V f as bs cs
  | _, _, _ => []

/-- The target-column assignment of `data.py` lines 333-336 on the
already-coerced frame: `df.loc[:, col] = df.apply(lambda row: ..., axis=1)`.
(A missing column would raise a `KeyError` in the source; the fallthrough
is not modelled and theorems supply the columns.) -/
def applyCalcAssign (d2 : Df) (col first_input second_input : String) : Df :=
  match dfGetCol d2 col, dfGetCol d2 first_input, dfGetCol d2 second_input with
  | some t, some fv, some sv => dfSetCol d2 col (zipWith3V calcCell t fv sv)
  | _, _, _ => d2

/-- The supported-calc update of `data.py` lines 330-336: coerce the two
input columns to datetime in place, then assign the target column from
the row lambda. -/
def applyCalc (d : Df) (col first_input second_input : String) : Df :=
  applyCalcAssign (dfMapCol (dfMapCol d first_input pdToDatetime) second_input pdToDatetime)
    col first_input second_input

/-- A resolved missing-data strategy.  The string options a user can type
are the six bare constructors (`calcStr` is the literal string `"calc"`,
which carries no configuration and is skipped at `data.py` lines
318-320); `calcConf` is the dict form read from `config.json`. -/
inductive Strategy where
  | drop
  | mean
  | median
  | mode
  | zero
  | calcStr
  | calcConf (first_input second_input operator unit : String)
deriving DecidableEq, Repr

/-- The numeric values of a column (`NaN` skipped), used by the
statistics. -/
def colNums (vals : List Val) : List ℚ :=
  vals.filterMap fun v =>
    match v with
    | .num q => some q
    | _ => none

/-- `pd.api.types.is_numeric_dtype`: a column is numeric when every
value is a number or null. -/
def isNumericCol (vals : List Val) : Bool :=
  vals.all (fun v => v.isNull || v.isNum)

/-- `series.mean()`: `NaN` (here `none`) when no numeric value exists. -/
def meanOpt (vals : List Val) : Option ℚ :=
  let ns := colNums vals
  if ns.isEmpty then none else some (ns.sum / ns.length)

/-- Insert into a sorted list of rationals. -/
def insertSorted (q : ℚ) : List ℚ → List ℚ
  | [] => [q]
  | x :: xs => if q ≤ x then q :: x :: xs else x :: insertSorted q xs

/-- Ascending insertion sort. -/
def sortRats (l : List ℚ) : List ℚ :=
  l.foldr insertSorted []

/-- `series.median()`: middle of the sorted non-null values, mean of the
two middles for even counts, `NaN` when empty. -/
def medianOpt (vals : List Val) : Option ℚ :=
  let ns := sortRats (colNums vals)
  let n := ns.length
  if n == 0 then none
  else if n % 2 == 1 then some (ns.getD (n / 2) 0)
  else some ((ns.getD (n / 2 - 1) 0 + ns.getD (n / 2) 0) / 2)

/-- A total order on values used to pick `mode().iloc[0]` (pandas sorts
the modal values ascending). -/
def valLe : Val → Val → Bool
  | .num p, .num q => decide (p ≤ q)
  | .str s, .str t => decide (s ≤ t)
  | .date p, .date q => decide (p ≤ q)
  | a, b =>
    (match a with | .null => 0 | .num _ => 1 | .str _ => 2 | .date _ => 3) ≤
    (match b with | .null => 0 | .num _ => 1 | .str _ => 2 | .date _ => 3)

/-- `series.mode().iloc[0]` when the mode exists: the least, under
`valLe`, among the non-null values of maximal multiplicity; `none` when
the column has no non-null value. -/
def modeOpt (vals : List Val) : Option Val :=
  let ns := vals.filter (fun v => !v.isNull)
  if ns.isEmpty then none
  else
    let maxCnt := (ns.map (fun v => ns.count v)).foldl Nat.max 0
    let best := ns.filter (fun v => ns.count v == maxCnt)
    best.foldl
      (fun acc v =>
        match acc with
        | none => some v
        | some w => if valLe v w then some v else some w)
      none

/-- `series.fillna(x)` for an optional numeric fill value: filling with
`NaN` (`none`) changes nothing. -/
def fillnaNum (vals : List Val) (x : Option ℚ) : List Val :=
  match x with
  | none => vals
  | some m => vals.map (fun v => if v.isNull then .num m else v)

/-- `series.fillna(x)` for a concrete value. -/
def fillnaVal (vals : List Val) (x : Val) : List Val :=
  vals.map (fun v => if v.isNull then x else v)

/-- Update one column of a frame through `g`, when present. -/
def fillColWith (d : Df) (c : String) (g : List Val → List Val) : Df :=
  match dfGetCol d c with
  | some vs => dfSetCol d c (g vs)
  | none => d

/-- The evolving state of one `data_fitting` call.  `cur` is the local
variable `df`; `caller` is the frame object the caller passed in;
`aliased` records whether the local name still refers to the caller's
object (true until the first `df = df.dropna(...)` rebinding); `config`
and `prompted` track the persisted strategies and the columns for which
the interactive prompt ran. -/
structure FitState where
  cur : Df
  caller : Df
  aliased : Bool
  config : List (String × Strategy)
  prompted : List String
deriving DecidableEq

/-- An in-place frame mutation (`df.loc[:, col] = ...` or
`df[col] = ...`): it changes the object the local name refers to, hence
also the caller's object while the two are still aliased. -/
def inPlace (st : FitState) (f : Df → Df) : FitState :=
  { st with
    cur := f st.cur
    caller := if st.aliased then f st.cur else st.caller }

/-- Application of a resolved strategy to one column (`data.py` lines
316-367). -/
def applyStrategy (st : FitState) (col : String) : Strategy → FitState
  | .calcConf first_input second_input operator unit =>
    if operator != "-" || pyToLower unit != "month" then st
    else inPlace st (fun d => applyCalc d col first_input second_input)
  | .calcStr => st
  | .drop =>
    match dfGetCol st.cur col with
    | some vals =>
      { st with
        cur := dfFilterRows st.cur (vals.map (fun v => !v.isNull))
        aliased := false }
    | none => st
  | .mean =>
    match dfGetCol st.cur col with
    | some vals =>
      if isNumericCol vals then
        inPlace st (fun d => fillColWith d col (fun vs => fillnaNum vs (meanOpt vs)))
      else st
    | none => st
  | .median =>
    match dfGetCol st.cur col with
    | some vals =>
      if isNumericCol vals then
        inPlace st (fun d => fillColWith d col (fun vs => fillnaNum vs (medianOpt vs)))
      else st
    | none => st
  | .mode =>
    match dfGetCol st.cur col with
    | some vals =>
      match modeOpt vals with
      | some mv => inPlace st (fun d => fillColWith d col (fun vs => fillnaVal vs mv))
      | none => st
    | none => st
  | .zero =>
    inPlace st (fun d => fillColWith d col (fun vs => fillnaVal vs (.num 0)))

/-- One iteration of the `for col in columns_to_check` loop of
`data_fitting` (`data.py` lines 292-370): skip absent columns; when the
column has missing values (the `missing_urs` list is non-empty exactly
when the column has a null), resolve the strategy from the persisted
config or, failing that, from the prompt — persisting the prompted
choice and recording that the prompt ran — then apply it. -/
def processCol (prompt : String → Strategy) (st : FitState) (col : String) : FitState :=
  match dfGetCol st.cur col with
  | none => st
  | some vals =>
    if vals.any (fun v => v.isNull) then
      match lookupAssoc st.config col with
      | some opt => applyStrategy st col opt
      | none =>
        let opt := prompt col
        applyStrategy
          { st with
            config := insertAssoc st.config col opt
            prompted := st.prompted ++ [col] }
          col opt
    else st

/-- `data_fitting` from `data.py` lines 268-372, with the interactive
`input()` abstracted as the `prompt` collaborator (the source's
validation loop guarantees the prompt yields one of the allowed string
options; the embedding leaves its range unconstrained, which only
enlarges the behaviours covered). -/
def data_fitting (df : Df) (columns_to_check : List String)
    (config : List (String × Strategy)) (prompt : String → Strategy) : FitState :=
  columns_to_check.foldl (processCol prompt) ⟨df, df, true, config, []⟩

/-- The strategy a column resolves to against an initial config and a
prompt: the persisted entry when present, the prompted one otherwise. -/
def resolvedStrategy (config : List (String × Strategy)) (prompt : String → Strategy)
    (c : String) : Strategy :=
  (lookupAssoc config c).getD (prompt c)

/-! ### General lemmas about the dictionary model -/

theorem lookupAssoc_insertAssoc_self {κ α : Type} [BEq κ] [LawfulBEq κ]
    (m : List (κ × α)) (k : κ) (v : α) :
    lookupAssoc (insertAssoc m k v) k = some v := by
  induction m with
  | nil => simp [insertAssoc, lookupAssoc]
  | cons p ps ih =>
    cases h : p.1 == k with
    | true => simp [insertAssoc, lookupAssoc, h]
    | false => simp [insertAssoc, lookupAssoc, h, ih]

theorem lookupAssoc_insertAssoc_ne {κ α : Type} [BEq κ] [LawfulBEq κ]
    (m : List (κ × α)) (k c : κ) (v : α) (h : k ≠ c) :
    lookupAssoc (insertAssoc m k v) c = lookupAssoc m c := by
  have hkc : (k == c) = false := by simpa using h
  induction m with
  | nil => simp [insertAssoc, lookupAssoc, hkc]
  | cons p ps ih =>
    cases hpk : p.1 == k with
    | true =>
      have hp : p.1 = k := by simpa using hpk
      simp [insertAssoc, lookupAssoc, hpk, hkc, hp]
    | false =>
      cases hpc : p.1 == c with
      | true => simp [insertAssoc, lookupAssoc, hpk, hpc]
      | false => simp [insertAssoc, lookupAssoc, hpk, hpc, ih]

theorem mem_insertAssoc {κ α : Type} [BEq κ] (m : List (κ × α)) (k : κ) (v : α) :
    ∀ p ∈ insertAssoc m k v, p ∈ m ∨ p = (k, v) := by
  induction m with
  | nil =>
    intro p hp
    simp only [insertAssoc, List.mem_singleton] at hp
    exact Or.inr hp
  | cons q ps ih =>
    intro p hp
    cases h : q.1 == k with
    | true =>
      simp only [insertAssoc, h, if_true] at hp
      rcases List.mem_cons.mp hp with hp | hp
      · exact Or.inr hp
      · exact Or.inl (List.mem_cons_of_mem _ hp)
    | false =>
      simp only [insertAssoc, h, Bool.false_eq_true, if_false] at hp
      rcases List.mem_cons.mp hp with hp | hp
      · exact Or.inl (hp ▸ List.mem_cons_self _ _)
      · rcases ih p hp with h2 | h2
        · exact Or.inl (List.mem_cons_of_mem _ h2)
        · exact Or.inr h2

/-! ### Lemmas about header parsing and aggregation -/

theorem processHeaders_foldl_fst (cols : List String)
    (acc : List String × List (String × String)) :
    (cols.foldl processHeadersStep acc).1 = acc.1 ++ cols.map headerCanonName := by
  induction cols generalizing acc with
  | nil => simp
  | cons c t ih =>
    have hstep : (processHeadersStep acc c).1 = acc.1 ++ [headerCanonName c] := by
      unfold processHeadersStep headerCanonName
      cases h : containsHash (pyStrip c) <;> simp [h]
    rw [List.foldl_cons, ih, hstep]
    simp

theorem aggFirstNonNull_eq_find (xs : List Val) :
    aggFirstNonNull xs = (xs.find? (fun v => !v.isNull)).getD Val.null := by
  induction xs with
  | nil => rfl
  | cons x t ih =>
    cases hx : x.isNull with
    | true =>
      simpa [aggFirstNonNull, seriesDropna, List.filter_cons, hx, List.find?_cons] using ih
    | false =>
      simp [aggFirstNonNull, seriesDropna, List.filter_cons, hx, List.find?_cons]

/-! ### Lemmas about the percentage detector -/

theorem detectStep_entries_true (acc : List (String × Bool)) (col : List Cell)
    (h : ∀ p ∈ acc, p.2 = true) :
    ∀ p ∈ detectStep acc col, p.2 = true := by
  intro p hp
  unfold detectStep at hp
  split at hp
  · exact h p hp
  · split at hp
    · exact h p hp
    · split at hp
      · exact h p hp
      · split at hp
        · rcases mem_insertAssoc _ _ _ p hp with h2 | h2
          · exact h p h2
          · rw [h2]
        · exact h p hp

theorem detect_foldl_entries_true (cols : List (List Cell)) (acc : List (String × Bool))
    (h : ∀ p ∈ acc, p.2 = true) :
    ∀ p ∈ cols.foldl detectStep acc, p.2 = true := by
  induction cols generalizing acc with
  | nil => exact h
  | cons c t ih => exact ih _ (detectStep_entries_true acc c h)

/-! ### Claim theorems -/

/-- Claim C1 (code_bug): on an aggregated row whose panel lists have
unequal lengths — `Gene` and `Tier` of length 2, `VAF% G1` of length 1 —
`combine_gene_info` does not raise: Python's `zip` silently truncates to
the shortest list and the function returns a single gene record, pairing
gene `"A"` with the lone VAF.  The spec instead requires a loud failure
on a panel-length mismatch. -/
theorem combine_gene_info_truncates :
    combine_gene_info [Val.str "A", Val.str "B"] [Val.num (1/10)]
        [Val.num 1, Val.num 2] [Val.str "x", Val.str "y"] =
      [⟨Val.str "A", Val.num (1/10), Val.num 1, Val.str "x"⟩] := by
  decide

/-- Claim C2 (confirmed): in the aggregation of `data.py`'s
`data_cleansing`, every non-panel scalar column of a patient group
aggregates to the first non-null value of the group in row order, and to
null when every value in the group is null (the aggregation lambda is a
total function, so no error is raised). -/
theorem aggregation_first_non_null (rows : List (List (String × Val)))
    (g : Val × List (List (String × Val))) (_hg : g ∈ groupRows rows) (c : String) :
    aggregateScalar g.2 c =
      ((g.2.map (fun r => rowGet r c)).find? (fun v => !v.isNull)).getD Val.null ∧
    ((∀ r ∈ g.2, (rowGet r c).isNull = true) → aggregateScalar g.2 c = Val.null) := by
  constructor
  · exact aggFirstNonNull_eq_find _
  · intro h
    unfold aggregateScalar
    rw [aggFirstNonNull_eq_find]
    have hnone : (g.2.map (fun r => rowGet r c)).find? (fun v => !v.isNull) = none := by
      rw [List.find?_eq_none]
      intro v hv
      rcases List.mem_map.mp hv with ⟨r, hr, hrv⟩
      simp [← hrv, h r hr]
    rw [hnone]
    rfl

/-- Witness for the aggregation theorem: the spec's own example group —
a patient with `Ferritin` null on the first row and `5` on the second —
aggregates `Ferritin` to `5`. -/
theorem aggregation_first_non_null_witness :
    aggregateScalar [[("UR", Val.str "A"), ("Ferritin", Val.null)],
                     [("UR", Val.str "A"), ("Ferritin", Val.num 5)]] "Ferritin" = Val.num 5 := by
  have h := aggregation_first_non_null
    [[("UR", Val.str "A"), ("Ferritin", Val.null)],
     [("UR", Val.str "A"), ("Ferritin", Val.num 5)]]
    (Val.str "A",
     [[("UR", Val.str "A"), ("Ferritin", Val.null)],
      [("UR", Val.str "A"), ("Ferritin", Val.num 5)]])
    (by decide) "Ferritin"
  rw [h.1]
  rfl

/-- Claim C3 (code_bug): `detect_percentage_format` records only columns
that carry a percentage format, always with value `True`, so the
`not is_percentage` branch of `standardize_numeric_columns` is
unreachable in the composed pipeline.  On a sheet whose column `P` is
percentage-formatted and whose column `Q` is not, the flagged column
`[90, 45]` is rescaled to `[0.9, 0.45]`, but the unflagged column
`[0.9, 45]` is left entirely untouched instead of becoming `[90, 45]`
as the claim requires. -/
theorem unflagged_column_never_rescaled :
    detect_percentage_format
        [[⟨some "P", "General"⟩, ⟨some "90", "0%"⟩, ⟨some "45", "0%"⟩],
         [⟨some "Q", "General"⟩, ⟨some "0.9", "General"⟩, ⟨some "45", "General"⟩]] =
      [("P", true)] ∧
    pipelineStandardize
        [[⟨some "P", "General"⟩, ⟨some "90", "0%"⟩, ⟨some "45", "0%"⟩],
         [⟨some "Q", "General"⟩, ⟨some "0.9", "General"⟩, ⟨some "45", "General"⟩]]
        [("P", [NumCell.num 90, NumCell.num 45]),
         ("Q", [NumCell.num (9/10), NumCell.num 45])] =
      [("P", [NumCell.num (9/10), NumCell.num (9/20)]),
       ("Q", [NumCell.num (9/10), NumCell.num 45])] ∧
    ∀ sheet : List (List Cell), (detect_percentage_format sheet).all (fun p => p.2) = true := by
  refine ⟨by decide, by decide, ?_⟩
  intro sheet
  rw [List.all_eq_true]
  exact fun p hp => detect_foldl_entries_true sheet [] (by simp) p hp

/-- Claim C4 (code_bug): in `evaluate_conditions`, operator precedence in
the Python conditional expression makes the `less_than` bound of a
criterion unreachable whenever `greater_than` is present.  For the clause
`if x: greater_than 0 and less_than 10` on a row with `x = 20`, the code
fires the clause and writes `1`, while AND semantics (the spec reading,
and the intent of the source's own `check if all conditions are met`
comment) would reject the clause and write the default `0`. -/
theorem less_than_bound_ignored :
    evaluate_conditions [⟨[("x", ⟨some 0, some 10⟩)], 1, "mid"⟩] (some 0) [("x", 20)] =
      some 1 ∧
    evaluateConditionsSpec [⟨[("x", ⟨some 0, some 10⟩)], 1, "mid"⟩] (some 0) [("x", 20)] =
      some 0 := by
  exact ⟨rfl, rfl⟩

/-- Claim C5 (code_bug): the Header Parser stores a description for
`Ferritin`, but the lookup structure `main.py` hands downstream is built
solely from `data_derive`'s freshly-created label dictionary
(`header_metadata` is rebound at `main.py` line 21), so the `Ferritin`
description is lost while the derived column's code labels are present.
The claimed monotone accumulation does not happen. -/
theorem header_descriptions_lost_downstream :
    lookupAssoc (process_headers ["UR", "Ferritin # serum ferritin level?"]).2 "Ferritin" =
      some "serum ferritin level?" ∧
    lookupAssoc
        (mainMetadataLookup ["UR", "Ferritin # serum ferritin level?"]
          [ColDef.conditional "Serum Iron Class"
            [⟨[("TF Sats", ⟨none, some (1/2)⟩)], 1, "high"⟩] (some 0) "normal"])
        "Ferritin" = none ∧
    lookupAssoc
        (mainMetadataLookup ["UR", "Ferritin # serum ferritin level?"]
          [ColDef.conditional "Serum Iron Class"
            [⟨[("TF Sats", ⟨none, some (1/2)⟩)], 1, "high"⟩] (some 0) "normal"])
        "Serum Iron Class" = some [(some 1, "high"), (some 0, "normal")] := by
  refine ⟨by decide, by decide, by decide⟩

/-- Claim C7 (confirmed): `map_value` scans the ordered rules and returns
the integer code of the first rule whose half-open interval
`floor ≤ v < ceiling` contains the value (absent bounds act as
infinities); a null input or a value matching no rule yields null; and on
the spec's boundary example — `[0, 20) ↦ 1`, `[20, ∞) ↦ 2` — the value
exactly `20` maps to code `2`. -/
theorem mapping_first_interval_wins (rules : List MapRule) (v : ℚ) :
    map_value rules v = (rules.find? (ruleMatches v)).map (fun r => r.criteria.int_value) ∧
    applyMapping rules none = none ∧
    applyMapping [⟨"low", ⟨some 0, some 20, 1⟩⟩, ⟨"high", ⟨some 20, none, 2⟩⟩] (some 20) =
      some 2 := by
  refine ⟨?_, rfl, rfl⟩
  induction rules with
  | nil => rfl
  | cons r rs ih =>
    cases h : ruleMatches v r with
    | true => simp [map_value, List.find?_cons, h]
    | false => simp [map_value, List.find?_cons, h, ih]

/-- Claim C9 (counterexample): parsing the header
`"Ferritin # serum ferritin level?"` does not store the description
`"serum ferritin level"` — the trailing question mark is stripped from
the canonical name only, never from the description. -/
theorem description_keeps_question_mark :
    lookupAssoc (process_headers ["Ferritin # serum ferritin level?"]).2 "Ferritin" ≠
      some "serum ferritin level" := by
  decide

/-- Claim C9 (amended): parsing `"Ferritin # serum ferritin level?"`
yields canonical name `"Ferritin"` and description
`"serum ferritin level?"` (the left part of the first-`#` split is
stripped of whitespace, a leading `*` and a trailing `?`; the right part
is only whitespace-stripped), and headers are never deleted or reordered:
the output header list is the canonical name of each input header, in
order. -/
theorem header_parse_ferritin :
    (process_headers ["Ferritin # serum ferritin level?"]).1 = ["Ferritin"] ∧
    lookupAssoc (process_headers ["Ferritin # serum ferritin level?"]).2 "Ferritin" =
      some "serum ferritin level?" ∧
    ∀ columns : List String, (process_headers columns).1 = columns.map headerCanonName := by
  refine ⟨by decide, by decide, ?_⟩
  intro columns
  unfold process_headers
  simpa using processHeaders_foldl_fst columns ([], [])

/-! ### Lemmas about the missing-data resolver -/

theorem dfGetCol_dfSetCol_self (df : Df) (c : String) (vals : List Val) :
    dfGetCol (dfSetCol df c vals) c = some vals :=
  lookupAssoc_insertAssoc_self df c vals

theorem dfGetCol_dfSetCol_ne (df : Df) (c c2 : String) (vals : List Val) (h : c ≠ c2) :
    dfGetCol (dfSetCol df c vals) c2 = dfGetCol df c2 :=
  lookupAssoc_insertAssoc_ne df c c2 vals h

theorem dfMapCol_eq_of_get (df : Df) (c : String) (f : Val → Val) (vals : List Val)
    (h : dfGetCol df c = some vals) :
    dfMapCol df c f = dfSetCol df c (vals.map f) := by
  unfold dfMapCol
  rw [h]

theorem applyCalcAssign_get (d2 : Df) (col fi se : String) (t fv sv : List Val)
    (hc : dfGetCol d2 col = some t) (hf : dfGetCol d2 fi = some fv)
    (hs : dfGetCol d2 se = some sv) :
    applyCalcAssign d2 col fi se = dfSetCol d2 col (zipWith3V calcCell t fv sv) := by
  unfold applyCalcAssign
  rw [hc, hf, hs]

theorem applyStrategy_config (st : FitState) (col : String) (opt : Strategy) :
    (applyStrategy st col opt).config = st.config := by
  cases opt <;> simp only [applyStrategy, inPlace] <;> (repeat' split) <;> rfl

theorem applyStrategy_prompted (st : FitState) (col : String) (opt : Strategy) :
    (applyStrategy st col opt).prompted = st.prompted := by
  cases opt <;> simp only [applyStrategy, inPlace] <;> (repeat' split) <;> rfl

theorem processCol_persisted (prompt : String → Strategy) (st : FitState) (col c : String)
    (s : Strategy) (h1 : lookupAssoc st.config c = some s) (h2 : c ∉ st.prompted) :
    lookupAssoc (processCol prompt st col).config c = some s ∧
    c ∉ (processCol prompt st col).prompted := by
  unfold processCol
  split
  · exact ⟨h1, h2⟩
  · split
    · split
      · rw [applyStrategy_config, applyStrategy_prompted]
        exact ⟨h1, h2⟩
      · rename_i hnone
        have hne : col ≠ c := by
          intro he
          subst he
          rw [hnone] at h1
          exact Option.noConfusion h1
        rw [applyStrategy_config, applyStrategy_prompted]
        constructor
        · change lookupAssoc (insertAssoc st.config col (prompt col)) c = some s
          rw [lookupAssoc_insertAssoc_ne _ _ _ _ hne]
          exact h1
        · change c ∉ st.prompted ++ [col]
          intro hmem
          rcases List.mem_append.mp hmem with hm | hm
          · exact h2 hm
          · exact hne (List.mem_singleton.mp hm).symm
    · exact ⟨h1, h2⟩

theorem foldl_persisted (prompt : String → Strategy) (cols : List String) :
    ∀ st : FitState, ∀ c : String, ∀ s : Strategy,
      lookupAssoc st.config c = some s → c ∉ st.prompted →
      lookupAssoc (cols.foldl (processCol prompt) st).config c = some s ∧
      c ∉ (cols.foldl (processCol prompt) st).prompted := by
  induction cols with
  | nil => exact fun st c s h1 h2 => ⟨h1, h2⟩
  | cons col tl ih =>
    intro st c s h1 h2
    obtain ⟨h1a, h2a⟩ := processCol_persisted prompt st col c s h1 h2
    exact ih (processCol prompt st col) c s h1a h2a

theorem inPlace_pres (st : FitState) (f : Df → Df) (ha : st.aliased = true) :
    (inPlace st f).aliased = true ∧ (inPlace st f).caller = (inPlace st f).cur := by
  simp [inPlace, ha]

theorem applyStrategy_nondrop (st : FitState) (col : String) (opt : Strategy)
    (hop : opt ≠ Strategy.drop) (ha : st.aliased = true) (he : st.caller = st.cur) :
    (applyStrategy st col opt).aliased = true ∧
    (applyStrategy st col opt).caller = (applyStrategy st col opt).cur := by
  cases opt <;>
    first
      | exact absurd rfl hop
      | (simp only [applyStrategy]
         (repeat' split) <;>
           first
             | exact ⟨ha, he⟩
             | exact inPlace_pres st _ ha)

theorem processCol_caller_eq (cfg0 : List (String × Strategy)) (prompt : String → Strategy)
    (st : FitState) (col : String)
    (hcol : resolvedStrategy cfg0 prompt col ≠ Strategy.drop)
    (ha : st.aliased = true) (he : st.caller = st.cur)
    (hcompat : ∀ c, lookupAssoc st.config c = none → lookupAssoc cfg0 c = none)
    (hconsist : ∀ c s, lookupAssoc st.config c = some s → resolvedStrategy cfg0 prompt c = s) :
    (processCol prompt st col).aliased = true ∧
    (processCol prompt st col).caller = (processCol prompt st col).cur ∧
    (∀ c, lookupAssoc (processCol prompt st col).config c = none →
        lookupAssoc cfg0 c = none) ∧
    (∀ c s, lookupAssoc (processCol prompt st col).config c = some s →
        resolvedStrategy cfg0 prompt c = s) := by
  unfold processCol
  split
  · exact ⟨ha, he, hcompat, hconsist⟩
  · split
    · split
      · rename_i opt hopt
        have hres : resolvedStrategy cfg0 prompt col = opt := hconsist col opt hopt
        have hnd : opt ≠ Strategy.drop := hres ▸ hcol
        obtain ⟨g1, g2⟩ := applyStrategy_nondrop st col opt hnd ha he
        rw [applyStrategy_config]
        exact ⟨g1, g2, hcompat, hconsist⟩
      · rename_i hnone
        have hcfg0 : lookupAssoc cfg0 col = none := hcompat col hnone
        have hres : resolvedStrategy cfg0 prompt col = prompt col := by
          unfold resolvedStrategy
          rw [hcfg0]
          rfl
        have hnd : prompt col ≠ Strategy.drop := hres ▸ hcol
        obtain ⟨g1, g2⟩ := applyStrategy_nondrop
          { st with
            config := insertAssoc st.config col (prompt col)
            prompted := st.prompted ++ [col] }
          col (prompt col) hnd ha he
        refine ⟨g1, g2, ?_, ?_⟩
        · intro c hc
          rw [applyStrategy_config] at hc
          change lookupAssoc (insertAssoc st.config col (prompt col)) c = none at hc
          by_cases hceq : col = c
          · subst hceq
            rw [lookupAssoc_insertAssoc_self] at hc
            exact Option.noConfusion hc
          · rw [lookupAssoc_insertAssoc_ne _ _ _ _ hceq] at hc
            exact hcompat c hc
        · intro c s hc
          rw [applyStrategy_config] at hc
          change lookupAssoc (insertAssoc st.config col (prompt col)) c = some s at hc
          by_cases hceq : col = c
          · subst hceq
            rw [lookupAssoc_insertAssoc_self] at hc
            obtain rfl := Option.some.inj hc
            exact hres
          · rw [lookupAssoc_insertAssoc_ne _ _ _ _ hceq] at hc
            exact hconsist c s hc
    · exact ⟨ha, he, hcompat, hconsist⟩

theorem foldl_caller_eq (cfg0 : List (String × Strategy)) (prompt : String → Strategy)
    (cols : List String) :
    ∀ st : FitState,
      (∀ c ∈ cols, resolvedStrategy cfg0 prompt c ≠ Strategy.drop) →
      st.aliased = true → st.caller = st.cur →
      (∀ c, lookupAssoc st.config c = none → lookupAssoc cfg0 c = none) →
      (∀ c s, lookupAssoc st.config c = some s → resolvedStrategy cfg0 prompt c = s) →
      (cols.foldl (processCol prompt) st).caller = (cols.foldl (processCol prompt) st).cur := by
  induction cols with
  | nil => exact fun st _ _ he _ _ => he
  | cons col tl ih =>
    intro st hcols ha he hcompat hconsist
    obtain ⟨g1, g2, g3, g4⟩ := processCol_caller_eq cfg0 prompt st col
      (hcols col (List.mem_cons_self _ _)) ha he hcompat hconsist
    exact ih (processCol prompt st col)
      (fun c hc => hcols c (List.mem_cons_of_mem _ hc)) g1 g2 g3 g4

/-- Claim C6 (amended): once a strategy is persisted for a column,
`data_fitting` never invokes the interactive prompt for it and the
persisted entry survives the run unchanged — irrespective of the frame,
the other columns processed, and the prompt collaborator. -/
theorem data_fitting_no_reprompt (df : Df) (cols : List String)
    (config : List (String × Strategy)) (prompt : String → Strategy)
    (c : String) (s : Strategy) (h : lookupAssoc config c = some s) :
    c ∉ (data_fitting df cols config prompt).prompted ∧
    lookupAssoc (data_fitting df cols config prompt).config c = some s := by
  have h2 := foldl_persisted prompt cols ⟨df, df, true, config, []⟩ c s h (by simp)
  exact ⟨h2.2, h2.1⟩

/-- Witness for the no-re-prompt theorem at a concrete run: with `"zero"`
persisted for column `X`, the run prompts for nothing and the config
still maps `X` to `"zero"` afterwards. -/
theorem data_fitting_no_reprompt_witness :
    "X" ∉ (data_fitting [("UR", [Val.str "u"]), ("X", [Val.null])] ["X"]
        [("X", Strategy.zero)] (fun _ => Strategy.mean)).prompted ∧
    lookupAssoc ((data_fitting [("UR", [Val.str "u"]), ("X", [Val.null])] ["X"]
        [("X", Strategy.zero)] (fun _ => Strategy.mean)).config) "X" =
      some Strategy.zero :=
  data_fitting_no_reprompt _ _ _ _ "X" Strategy.zero (by decide)

/-- Claim C6 (counterexample): the strategy persisted for column `A` —
a calc over date columns `F` and `S` — mutates column `F` of the caller's
frame: the unparseable text `"junk"` in `F` is coerced to null by the
in-place `pd.to_datetime` conversion, so the choice made for `A` is not
isolated to `A`. -/
theorem calc_strategy_mutates_other_column :
    dfGetCol ((data_fitting
        [("UR", [Val.str "u1"]), ("A", [Val.null]),
         ("F", [Val.str "junk"]), ("S", [Val.str "2020-01-01"])]
        ["A"] [("A", Strategy.calcConf "F" "S" "-" "month")]
        (fun _ => Strategy.zero)).caller) "F" = some [Val.null] ∧
    dfGetCol [("UR", [Val.str "u1"]), ("A", [Val.null]),
        ("F", [Val.str "junk"]), ("S", [Val.str "2020-01-01"])] "F" =
      some [Val.str "junk"] := by
  exact ⟨by decide, by decide⟩

/-- Claim C8 (amended): the calc branch of `data_fitting` skips the
column — leaving the state untouched — exactly when the operator is not
`"-"` or the lowercased unit is not `"month"`; when supported it writes,
for every row, `calcCell` applied to the old target and the two
datetime-coerced inputs, where `calcCell` keeps any existing value,
computes `(first - second).days / 30` when the target is null and both
dates are present, leaves the target null when either date is missing,
and where coercion turns an unparseable date string into null without
raising. -/
theorem data_fitting_calc_branch (st : FitState) (col fi se op unit : String)
    (t fv sv : List Val)
    (hcf : col ≠ fi) (hcs : col ≠ se) (hfs : fi ≠ se)
    (ht : dfGetCol st.cur col = some t) (hf : dfGetCol st.cur fi = some fv)
    (hs : dfGetCol st.cur se = some sv) :
    ((op != "-" || pyToLower unit != "month") = true →
        applyStrategy st col (Strategy.calcConf fi se op unit) = st) ∧
    ((op != "-" || pyToLower unit != "month") = false →
        dfGetCol (applyStrategy st col (Strategy.calcConf fi se op unit)).cur col =
          some (zipWith3V calcCell t (fv.map pdToDatetime) (sv.map pdToDatetime))) ∧
    (∀ v a b : Val, v.isNull = false → calcCell v a b = v) ∧
    (∀ a b : ℤ, calcCell Val.null (Val.date a) (Val.date b) =
        Val.num (((a - b : ℤ) : ℚ) / 30)) ∧
    (∀ a : Val, calcCell Val.null a Val.null = Val.null ∧
        calcCell Val.null Val.null a = Val.null) ∧
    (∀ s2 : String, parseDateStr s2 = none → pdToDatetime (Val.str s2) = Val.null) := by
  refine ⟨?_, ?_, ?_, ?_, ?_, ?_⟩
  · intro h
    simp [applyStrategy, h]
  · intro h
    have hstep : applyStrategy st col (Strategy.calcConf fi se op unit) =
        inPlace st (fun d => applyCalc d col fi se) := by
      simp [applyStrategy, h]
    rw [hstep]
    show dfGetCol (applyCalc st.cur col fi se) col = _
    unfold applyCalc
    rw [dfMapCol_eq_of_get _ _ _ _ hf]
    rw [dfMapCol_eq_of_get _ _ _ _
      (by rw [dfGetCol_dfSetCol_ne _ _ _ _ hfs]; exact hs)]
    have h2c : dfGetCol (dfSetCol (dfSetCol st.cur fi (fv.map pdToDatetime)) se
        (sv.map pdToDatetime)) col = some t := by
      rw [dfGetCol_dfSetCol_ne _ _ _ _ (Ne.symm hcs),
        dfGetCol_dfSetCol_ne _ _ _ _ (Ne.symm hcf)]
      exact ht
    have h2f : dfGetCol (dfSetCol (dfSetCol st.cur fi (fv.map pdToDatetime)) se
        (sv.map pdToDatetime)) fi = some (fv.map pdToDatetime) := by
      rw [dfGetCol_dfSetCol_ne _ _ _ _ (Ne.symm hfs)]
      exact dfGetCol_dfSetCol_self _ _ _
    have h2s : dfGetCol (dfSetCol (dfSetCol st.cur fi (fv.map pdToDatetime)) se
        (sv.map pdToDatetime)) se = some (sv.map pdToDatetime) :=
      dfGetCol_dfSetCol_self _ _ _
    rw [applyCalcAssign_get _ _ _ _ _ _ _ h2c h2f h2s]
    exact dfGetCol_dfSetCol_self _ _ _
  · intro v a b hv
    cases v <;> simp_all [calcCell, Val.isNull]
  · intro a b
    rfl
  · intro a
    exact ⟨by cases a <;> rfl, by cases a <;> rfl⟩
  · intro s2 h2
    simp [pdToDatetime, h2]

/-- Witness for the calc-branch theorem: target `A = [null, 5]`,
`F = ["2020-03-01", "2020-03-01"]`, `S = ["2020-01-01", "x"]`, unit
`"Month"` (supported after lowercasing): the null target with both dates
becomes `(60 days)/30 = 2`, the row with an existing value keeps `5`
(its unparseable date `"x"` having coerced to null). -/
theorem data_fitting_calc_branch_witness :
    dfGetCol (applyStrategy
        ⟨[("A", [Val.null, Val.num 5]),
          ("F", [Val.str "2020-03-01", Val.str "2020-03-01"]),
          ("S", [Val.str "2020-01-01", Val.str "x"])],
         [("A", [Val.null, Val.num 5]),
          ("F", [Val.str "2020-03-01", Val.str "2020-03-01"]),
          ("S", [Val.str "2020-01-01", Val.str "x"])], true, [], []⟩
        "A" (Strategy.calcConf "F" "S" "-" "Month")).cur "A" =
      some [Val.num 2, Val.num 5] := by
  have h := data_fitting_calc_branch
    ⟨[("A", [Val.null, Val.num 5]),
      ("F", [Val.str "2020-03-01", Val.str "2020-03-01"]),
      ("S", [Val.str "2020-01-01", Val.str "x"])],
     [("A", [Val.null, Val.num 5]),
      ("F", [Val.str "2020-03-01", Val.str "2020-03-01"]),
      ("S", [Val.str "2020-01-01", Val.str "x"])], true, [], []⟩
    "A" "F" "S" "-" "Month"
    [Val.null, Val.num 5]
    [Val.str "2020-03-01", Val.str "2020-03-01"]
    [Val.str "2020-01-01", Val.str "x"]
    (by decide) (by decide) (by decide) (by decide) (by decide) (by decide)
  rw [h.2.1 (by decide)]
  decide

/-- Claim C8 (counterexample): with operator `"-"` and unit `"MONTH"` —
a unit other than the literal `"month"` — the column is not skipped: the
unit is lowercased before the comparison, so the calc runs and fills the
null target with `2`. -/
theorem unit_case_insensitive_not_skipped :
    dfGetCol (applyStrategy
        ⟨[("A", [Val.null]), ("F", [Val.str "2020-03-01"]),
          ("S", [Val.str "2020-01-01"])],
         [("A", [Val.null]), ("F", [Val.str "2020-03-01"]),
          ("S", [Val.str "2020-01-01"])], true, [], []⟩
        "A" (Strategy.calcConf "F" "S" "-" "MONTH")).cur "A" = some [Val.num 2] ∧
    "MONTH" ≠ "month" := by
  exact ⟨by decide, by decide⟩

/-- Claim C10 (amended): when no column of the call resolves to the
`drop` strategy, the caller's frame object and the returned frame
coincide after `data_fitting` — every fill reached the caller's table
through the in-place updates. -/
theorem data_fitting_fills_reach_caller (df : Df) (cols : List String)
    (config : List (String × Strategy)) (prompt : String → Strategy)
    (h : ∀ c ∈ cols, resolvedStrategy config prompt c ≠ Strategy.drop) :
    (data_fitting df cols config prompt).caller =
      (data_fitting df cols config prompt).cur := by
  exact foldl_caller_eq config prompt cols ⟨df, df, true, config, []⟩ h rfl rfl
    (fun c hc => hc)
    (fun c s hc => by
      unfold resolvedStrategy
      rw [hc]
      rfl)

/-- Witness for the caller-visibility theorem: a single zero-filled
column, no drop anywhere, so the caller's object equals the returned
frame. -/
theorem data_fitting_fills_reach_caller_witness :
    (data_fitting [("UR", [Val.str "u1", Val.str "u2"]), ("Y", [Val.null, Val.num 3])]
        ["Y"] [("Y", Strategy.zero)] (fun _ => Strategy.median)).caller =
    (data_fitting [("UR", [Val.str "u1", Val.str "u2"]), ("Y", [Val.null, Val.num 3])]
        ["Y"] [("Y", Strategy.zero)] (fun _ => Strategy.median)).cur := by
  apply data_fitting_fills_reach_caller
  intro c hc
  have hcY : c = "Y" := by simpa using hc
  subst hcY
  decide

/-- Claim C10 (counterexample): with `A ↦ drop` processed before
`B ↦ zero`, the caller's frame is left completely unchanged — the row
with `A` null is still there, and `B`'s missing value was *not*
zero-filled in it, because the rebinding `df = df.dropna(...)` detached
the local name from the caller's object before the fill ran; the zero
fill landed only in the returned frame, which `main.py` discards. -/
theorem drop_freezes_caller :
    (data_fitting
        [("UR", [Val.str "u1", Val.str "u2"]), ("A", [Val.null, Val.num 1]),
         ("B", [Val.num 5, Val.null])]
        ["A", "B"] [("A", Strategy.drop), ("B", Strategy.zero)]
        (fun _ => Strategy.zero)).caller =
      [("UR", [Val.str "u1", Val.str "u2"]), ("A", [Val.null, Val.num 1]),
       ("B", [Val.num 5, Val.null])] ∧
    dfGetCol ((data_fitting
        [("UR", [Val.str "u1", Val.str "u2"]), ("A", [Val.null, Val.num 1]),
         ("B", [Val.num 5, Val.null])]
        ["A", "B"] [("A", Strategy.drop), ("B", Strategy.zero)]
        (fun _ => Strategy.zero)).cur) "B" = some [Val.num 0] := by
  exact ⟨by decide, by decide⟩

end MVR
